import Mathlib

/-!
Verification of the boundary-driven slicing engine of the Grid-Image-Slicer
repository: grid boundary generation, drag mutation of boundaries, crop
geometry, the resolution-capped resize step, and the per-tile encode loop.

Numbers that the source manipulates as JS numbers are modelled as rationals
(`ℚ`), so all arithmetic in the model is exact; the browser encoder
(`canvas.toBlob` followed by `FileReader.readAsDataURL`) is modelled as an
abstract function parameter from its inputs to an optional payload string.
-/

namespace GridSlicer

/-- A grid boundary: a pair of percentage offsets (`src/types`, `Boundary`). -/
structure Boundary where
  start : ℚ
  «end» : ℚ
  deriving DecidableEq

instance : Inhabited Boundary := ⟨⟨0, 0⟩⟩

/-- The full set of grid lines (`src/types`, `GridLines`). -/
structure GridLines where
  horizontal : List Boundary
  vertical : List Boundary
  deriving DecidableEq

/-- One encoded tile (`src/types`, `SliceResult`). -/
structure SliceResult where
  dataUrl : String
  index : ℕ
  row : ℕ
  col : ℕ
  deriving DecidableEq

/-- The decoded source bitmap, reduced to the data the slicing loop reads
from it (`image.naturalWidth`, `image.naturalHeight`). -/
structure Image where
  naturalWidth : ℚ
  naturalHeight : ℚ
  deriving DecidableEq

/-- Output format selector (`src/App.tsx`, `outputFormat` state). -/
inductive OutputFormat
  | webp
  | jpeg
  | png
  deriving DecidableEq

/-- The string the source uses for a format (its TS union value). -/
def OutputFormat.str : OutputFormat → String
  | .webp => "webp"
  | .jpeg => "jpeg"
  | .png => "png"

/-- The slicing configuration read by `handleSlice` besides the grid lines. -/
structure SliceConfig where
  quality : ℚ
  optimizeResolution : Bool
  outputFormat : OutputFormat
  deriving DecidableEq

/-- Everything `handleSlice` feeds into the canvas-and-encode step for one
cell: source crop rectangle, target size, mime type and quality argument. -/
structure EncodeArgs where
  xStart : ℚ
  yStart : ℚ
  sliceW : ℚ
  sliceH : ℚ
  targetW : ℚ
  targetH : ℚ
  mimeType : String
  quality : Option ℚ
  deriving DecidableEq

/-- The browser encode pipeline (`canvas.toBlob` + data-URL conversion),
abstracted as a function of the drawn image and the encode arguments; `none`
models `toBlob` resolving with `null`. -/
def Encoder : Type := Image → EncodeArgs → Option String

/-- The function `generateBoundaries` from `initializeGridLines` (src/App.tsx lines
32-49): `count+1` boundaries, fixed outer margins, 2-unit gutters at the
interior multiples of `100/count`. The source's decimal literals `1.5` and
`98.5` are written as the equal rationals `3/2` and `197/2`. -/
def generateBoundaries (count : ℕ) : List Boundary :=
  let numBoundaries := count + 1
  let step : ℚ := 100 / count
  let gutterHalfWidth : ℚ := 1
  (List.range numBoundaries).map fun (i : ℕ) =>
    let pos : ℚ := (i : ℚ) * step
    if i = 0 then { start := 0, «end» := 3 / 2 }
    else if i = numBoundaries - 1 then { start := 197 / 2, «end» := 100 }
    else { start := pos - gutterHalfWidth, «end» := pos + gutterHalfWidth }

/-- The function `initializeGridLines` (src/App.tsx lines 31-55). -/
def initializeGridLines (rows cols : ℕ) : GridLines :=
  { horizontal := generateBoundaries rows, vertical := generateBoundaries cols }

/-- C2: for every count ≥ 1, `generateBoundaries count` has `count+1`
entries; entry 0 is `{0, 1.5}`, entry `count` is `{98.5, 100}`, and every
interior entry `i` is `{i*(100/count)-1, i*(100/count)+1}`. -/
theorem generateBoundaries_spec (count : ℕ) (hc : 1 ≤ count) :
    (generateBoundaries count).length = count + 1 ∧
    (generateBoundaries count).get? 0 = some { start := 0, «end» := 1.5 } ∧
    (generateBoundaries count).get? count = some { start := 98.5, «end» := 100 } ∧
    ∀ i : ℕ, 0 < i → i < count →
      (generateBoundaries count).get? i =
        some { start := (i : ℚ) * (100 / (count : ℚ)) - 1,
               «end» := (i : ℚ) * (100 / (count : ℚ)) + 1 } := by
  unfold generateBoundaries
  refine ⟨by simp, ?_, ?_, ?_⟩
  · rw [List.get?_map, List.get?_range (by omega)]
    simp
    norm_num
  · rw [List.get?_map, List.get?_range (by omega)]
    have h0 : count ≠ 0 := by omega
    simp [h0]
    norm_num
  · intro i hi hic
    rw [List.get?_map, List.get?_range (by omega)]
    have h0 : i ≠ 0 := by omega
    have h1 : i ≠ count := by omega
    simp [h0, h1]

/-- Witness for C2 at `count = 3`. -/
theorem generateBoundaries_spec_witness :
    (generateBoundaries 3).get? 1 =
      some { start := (1 : ℚ) * (100 / (3 : ℚ)) - 1,
             «end» := (1 : ℚ) * (100 / (3 : ℚ)) + 1 } :=
  (generateBoundaries_spec 3 (by norm_num)).2.2.2 1 (by norm_num) (by norm_num)

/-- The horizontal band list of `handleSlice` (src/App.tsx lines 101-104):
`hRanges[i] = [horizontal[i].end, horizontal[i+1].start]` for
`i < horizontal.length - 1`. -/
def hRanges (gl : GridLines) : List (ℚ × ℚ) :=
  (List.range (gl.horizontal.length - 1)).map fun i =>
    ((gl.horizontal.getD i default).«end», (gl.horizontal.getD (i + 1) default).start)

/-- The vertical band list of `handleSlice` (src/App.tsx lines 106-109). -/
def vRanges (gl : GridLines) : List (ℚ × ℚ) :=
  (List.range (gl.vertical.length - 1)).map fun i =>
    ((gl.vertical.getD i default).«end», (gl.vertical.getD (i + 1) default).start)

/-- The row-major `(r, c)` iteration space of the nested `for` loops
(src/App.tsx lines 116-117). -/
def cells (numRows numCols : ℕ) : List (ℕ × ℕ) :=
  (List.range numRows).bind fun r => (List.range numCols).map fun c => (r, c)

/-- The per-cell crop rectangle in source pixels. -/
structure CropRect where
  xStart : ℚ
  yStart : ℚ
  sliceW : ℚ
  sliceH : ℚ
  deriving DecidableEq

/-- Crop-rectangle computation of one loop iteration
(src/App.tsx lines 118-124). -/
def cropRect (vr hr : List (ℚ × ℚ)) (naturalWidth naturalHeight : ℚ)
    (r c : ℕ) : CropRect :=
  let xStartOrig := (vr.getD c (0, 0)).1 / 100 * naturalWidth
  let xEndOrig := (vr.getD c (0, 0)).2 / 100 * naturalWidth
  let yStartOrig := (hr.getD r (0, 0)).1 / 100 * naturalHeight
  let yEndOrig := (hr.getD r (0, 0)).2 / 100 * naturalHeight
  { xStart := xStartOrig, yStart := yStartOrig,
    sliceW := max 0 (xEndOrig - xStartOrig),
    sliceH := max 0 (yEndOrig - yStartOrig) }

/-- The resolution cap (src/App.tsx line 128). -/
def maxDimFor (optimizeResolution : Bool) : ℚ :=
  if optimizeResolution then 1080 else 4096

/-- The capped target size of one tile (src/App.tsx lines 129-136). -/
def targetDims (optimizeResolution : Bool) (sliceW sliceH : ℚ) : ℚ × ℚ :=
  let m := maxDimFor optimizeResolution
  if sliceW > m ∨ sliceH > m then
    let ratio := min (m / sliceW) (m / sliceH)
    (sliceW * ratio, sliceH * ratio)
  else (sliceW, sliceH)

/-- The arguments `handleSlice` hands the canvas-and-encode step for one
cell (src/App.tsx lines 138-155): draw source rectangle, target size, the
mime type `image/<format>`, and the quality value, which is `undefined` for
png (line 152). -/
def encodeArgsFor (cfg : SliceConfig) (cr : CropRect) : EncodeArgs :=
  let td := targetDims cfg.optimizeResolution cr.sliceW cr.sliceH
  { xStart := cr.xStart, yStart := cr.yStart,
    sliceW := cr.sliceW, sliceH := cr.sliceH,
    targetW := td.1, targetH := td.2,
    mimeType := "image/" ++ cfg.outputFormat.str,
    quality := if cfg.outputFormat = .png then none else some cfg.quality }

/-- The body of one `(r, c)` iteration of `handleSlice`
(src/App.tsx lines 118-171), acting on the state `(index, newSlices)`:
a cell with `sliceW ≤ 0` or `sliceH ≤ 0` is skipped via `continue`, which
also skips the trailing `index++`; otherwise the cell is encoded, a
successful encode is appended with the current `index`, and `index` is
incremented whether or not the encode produced a blob. -/
def processCell (enc : Encoder) (img : Image) (cfg : SliceConfig)
    (vr hr : List (ℚ × ℚ)) (st : ℕ × List SliceResult) (rc : ℕ × ℕ) :
    ℕ × List SliceResult :=
  let cr := cropRect vr hr img.naturalWidth img.naturalHeight rc.1 rc.2
  if cr.sliceW ≤ 0 ∨ cr.sliceH ≤ 0 then st
  else
    match enc img (encodeArgsFor cfg cr) with
    | some dataUrl =>
        (st.1 + 1,
         st.2 ++ [{ dataUrl := dataUrl, index := st.1, row := rc.1, col := rc.2 }])
    | none => (st.1 + 1, st.2)

/-- The slicing operation `handleSlice` (src/App.tsx lines 88-181), as the
list of slices it produces from the image, grid lines and configuration. -/
def handleSlice (enc : Encoder) (img : Image) (gl : GridLines)
    (cfg : SliceConfig) : List SliceResult :=
  let numRows := gl.horizontal.length - 1
  let numCols := gl.vertical.length - 1
  let hr := hRanges gl
  let vr := vRanges gl
  ((cells numRows numCols).foldl (processCell enc img cfg vr hr) (0, [])).2

/-- Whether a cell survives the `sliceW <= 0 || sliceH <= 0` skip. -/
def isPositiveCell (img : Image) (vr hr : List (ℚ × ℚ)) (rc : ℕ × ℕ) : Bool :=
  let cr := cropRect vr hr img.naturalWidth img.naturalHeight rc.1 rc.2
  decide (0 < cr.sliceW ∧ 0 < cr.sliceH)

/-- The cells of the scan that pass the positive-area check, in row-major
scan order. -/
def posCells (img : Image) (gl : GridLines) : List (ℕ × ℕ) :=
  (cells (gl.horizontal.length - 1) (gl.vertical.length - 1)).filter
    (isPositiveCell img (vRanges gl) (hRanges gl))

/-- Encode one indexed positive cell into an optional slice record. -/
def encodeAt (enc : Encoder) (img : Image) (cfg : SliceConfig)
    (vr hr : List (ℚ × ℚ)) (p : ℕ × (ℕ × ℕ)) : Option SliceResult :=
  match enc img (encodeArgsFor cfg
      (cropRect vr hr img.naturalWidth img.naturalHeight p.2.1 p.2.2)) with
  | some dataUrl =>
      some { dataUrl := dataUrl, index := p.1, row := p.2.1, col := p.2.2 }
  | none => none

/-- Closed form of the slicing loop: enumerate the positive-area cells
(indices count only those cells) and keep the successful encodes. -/
def handleSliceSpec (enc : Encoder) (img : Image) (gl : GridLines)
    (cfg : SliceConfig) : List SliceResult :=
  ((posCells img gl).enum).filterMap
    (encodeAt enc img cfg (vRanges gl) (hRanges gl))

lemma processCell_skip (enc : Encoder) (img : Image) (cfg : SliceConfig)
    (vr hr : List (ℚ × ℚ)) (st : ℕ × List SliceResult) (rc : ℕ × ℕ)
    (h : isPositiveCell img vr hr rc = false) :
    processCell enc img cfg vr hr st rc = st := by
  have h' : ¬(0 < (cropRect vr hr img.naturalWidth img.naturalHeight rc.1 rc.2).sliceW ∧
      0 < (cropRect vr hr img.naturalWidth img.naturalHeight rc.1 rc.2).sliceH) := by
    simpa [isPositiveCell] using h
  have hguard :
      (cropRect vr hr img.naturalWidth img.naturalHeight rc.1 rc.2).sliceW ≤ 0 ∨
      (cropRect vr hr img.naturalWidth img.naturalHeight rc.1 rc.2).sliceH ≤ 0 := by
    rcases not_and_or.mp h' with h | h
    · exact Or.inl (not_lt.mp h)
    · exact Or.inr (not_lt.mp h)
  unfold processCell
  simp [hguard]

lemma processCell_pos (enc : Encoder) (img : Image) (cfg : SliceConfig)
    (vr hr : List (ℚ × ℚ)) (i : ℕ) (acc : List SliceResult) (rc : ℕ × ℕ)
    (h : isPositiveCell img vr hr rc = true) :
    processCell enc img cfg vr hr (i, acc) rc =
      match encodeAt enc img cfg vr hr (i, rc) with
      | some s => (i + 1, acc ++ [s])
      | none => (i + 1, acc) := by
  have h' : 0 < (cropRect vr hr img.naturalWidth img.naturalHeight rc.1 rc.2).sliceW ∧
      0 < (cropRect vr hr img.naturalWidth img.naturalHeight rc.1 rc.2).sliceH := by
    simpa [isPositiveCell] using h
  have hguard :
      ¬((cropRect vr hr img.naturalWidth img.naturalHeight rc.1 rc.2).sliceW ≤ 0 ∨
        (cropRect vr hr img.naturalWidth img.naturalHeight rc.1 rc.2).sliceH ≤ 0) := by
    push_neg
    exact ⟨h'.1, h'.2⟩
  unfold processCell encodeAt
  rw [if_neg hguard]
  cases enc img (encodeArgsFor cfg
      (cropRect vr hr img.naturalWidth img.naturalHeight rc.1 rc.2)) <;> rfl

lemma foldl_processCell (enc : Encoder) (img : Image) (cfg : SliceConfig)
    (vr hr : List (ℚ × ℚ)) :
    ∀ (l : List (ℕ × ℕ)) (i : ℕ) (acc : List SliceResult),
      l.foldl (processCell enc img cfg vr hr) (i, acc) =
        (i + (l.filter (isPositiveCell img vr hr)).length,
         acc ++ ((l.filter (isPositiveCell img vr hr)).enumFrom i).filterMap
           (encodeAt enc img cfg vr hr)) := by
  intro l
  induction l with
  | nil => intro i acc; simp
  | cons x l ih =>
    intro i acc
    by_cases hpos : isPositiveCell img vr hr x
    · rw [List.foldl_cons, processCell_pos enc img cfg vr hr i acc x hpos]
      have hfil : (x :: l).filter (isPositiveCell img vr hr) =
          x :: l.filter (isPositiveCell img vr hr) := by
        simp [List.filter_cons, hpos]
      rw [hfil]
      have henum : (x :: l.filter (isPositiveCell img vr hr)).enumFrom i =
          (i, x) :: (l.filter (isPositiveCell img vr hr)).enumFrom (i + 1) := rfl
      rw [henum, List.filterMap_cons]
      cases henc : encodeAt enc img cfg vr hr (i, x) with
      | none =>
        rw [ih]
        refine Prod.ext ?_ ?_ <;> simp
        omega
      | some s =>
        rw [ih]
        refine Prod.ext ?_ ?_ <;> simp
        omega
    · rw [List.foldl_cons,
        processCell_skip enc img cfg vr hr (i, acc) x (Bool.eq_false_iff.mpr hpos)]
      have hfil : (x :: l).filter (isPositiveCell img vr hr) =
          l.filter (isPositiveCell img vr hr) := by
        simp [List.filter_cons, hpos]
      rw [hfil, ih]

/-- The slicing loop equals its closed form. -/
lemma handleSlice_eq_spec (enc : Encoder) (img : Image) (gl : GridLines)
    (cfg : SliceConfig) :
    handleSlice enc img gl cfg = handleSliceSpec enc img gl cfg := by
  show ((cells (gl.horizontal.length - 1) (gl.vertical.length - 1)).foldl
      (processCell enc img cfg (vRanges gl) (hRanges gl)) (0, [])).2 = _
  rw [foldl_processCell]
  simp [handleSliceSpec, posCells, List.enum]

/-- An encoder that always succeeds, with a fixed payload. -/
def encAll : Encoder := fun _ _ => some "d"

/-- A 1-row, 2-column grid whose first column band is inverted
(`vertical[0].end = 50 > vertical[1].start = 10`), as the drag controller
permits; the second column band is `(60, 98.5)`. -/
def glInverted : GridLines :=
  { horizontal := [{ start := 0, «end» := 3 / 2 }, { start := 197 / 2, «end» := 100 }],
    vertical := [{ start := 0, «end» := 50 }, { start := 10, «end» := 60 },
                 { start := 197 / 2, «end» := 100 }] }

/-- A 100 × 100 source image. -/
def img100 : Image := { naturalWidth := 100, naturalHeight := 100 }

/-- The app's initial slice configuration
(quality 0.6, web optimization on, webp). -/
def cfgDefault : SliceConfig :=
  { quality := 3 / 5, optimizeResolution := true, outputFormat := .webp }

/-- C1 counterexample: on `glInverted` (cell (0,0) has zero area, cell
(0,1) is positive and encodes), the single emitted tile has scan position
`0*2+1 = 1` among attempted cells but carries `index = 0`: the `continue`
for a zero-area cell skips the trailing `index++`, so the sequential index
is NOT advanced past skipped cells. -/
theorem handleSlice_index_not_scan_position :
    ¬ ∀ s ∈ handleSlice encAll img100 glInverted cfgDefault,
        s.index = s.row * (glInverted.vertical.length - 1) + s.col := by
  with_unfolding_all decide

/-- C1 amended: each emitted tile's index is its scan position among the
cells that pass the positive-area check (zero-area cells are skipped
without advancing the index; cells whose encode fails still consume an
index slot, since they are positive cells). -/
theorem handleSlice_index_among_posCells (enc : Encoder) (img : Image)
    (gl : GridLines) (cfg : SliceConfig) (s : SliceResult)
    (hs : s ∈ handleSlice enc img gl cfg) :
    (posCells img gl)[s.index]? = some (s.row, s.col) := by
  rw [handleSlice_eq_spec] at hs
  unfold handleSliceSpec at hs
  obtain ⟨p, hp, hps⟩ := List.mem_filterMap.mp hs
  unfold encodeAt at hps
  cases henc : enc img (encodeArgsFor cfg (cropRect (vRanges gl) (hRanges gl)
      img.naturalWidth img.naturalHeight p.2.1 p.2.2)) with
  | none => rw [henc] at hps; exact absurd hps (by simp)
  | some d =>
      rw [henc] at hps
      have hsv : s.index = p.1 ∧ s.row = p.2.1 ∧ s.col = p.2.2 := by
        cases hps' : hps
        constructor
        · rfl
        · constructor <;> rfl
      have hmem := List.mem_enum_iff_getElem?.mp hp
      rw [hsv.1, hsv.2.1, hsv.2.2]
      rw [hmem]

/-- Witness for the amended C1 at a concrete run on `glInverted`. -/
theorem handleSlice_index_among_posCells_witness :
    (posCells img100 glInverted)[(0 : ℕ)]? = some (0, 1) :=
  handleSlice_index_among_posCells encAll img100 glInverted cfgDefault
    { dataUrl := "d", index := 0, row := 0, col := 1 } (by with_unfolding_all decide)

/-- An encoder that never produces a payload (`canvas.toBlob` resolving
with `null` on every cell). -/
def encNone : Encoder := fun _ _ => none

/-- C8: encode failures are absorbed locally. Every emitted slice comes
from a successful encode of its own cell; a positive-area cell whose
encode yields no payload contributes no slice (and nothing else is lost:
every other positive cell with a successful encode still appears), so the
operation always completes with the best-effort subset. -/
theorem handleSlice_encode_failure_absorbed (enc : Encoder) (img : Image)
    (gl : GridLines) (cfg : SliceConfig) :
    (∀ s ∈ handleSlice enc img gl cfg,
        enc img (encodeArgsFor cfg (cropRect (vRanges gl) (hRanges gl)
          img.naturalWidth img.naturalHeight s.row s.col)) = some s.dataUrl) ∧
    (∀ rc ∈ posCells img gl,
        enc img (encodeArgsFor cfg (cropRect (vRanges gl) (hRanges gl)
          img.naturalWidth img.naturalHeight rc.1 rc.2)) = none →
        ∀ s ∈ handleSlice enc img gl cfg, ¬(s.row = rc.1 ∧ s.col = rc.2)) ∧
    (∀ rc ∈ posCells img gl, ∀ d : String,
        enc img (encodeArgsFor cfg (cropRect (vRanges gl) (hRanges gl)
          img.naturalWidth img.naturalHeight rc.1 rc.2)) = some d →
        ∃ s ∈ handleSlice enc img gl cfg,
          s.row = rc.1 ∧ s.col = rc.2 ∧ s.dataUrl = d) := by
  have hmain : ∀ s ∈ handleSlice enc img gl cfg,
      enc img (encodeArgsFor cfg (cropRect (vRanges gl) (hRanges gl)
        img.naturalWidth img.naturalHeight s.row s.col)) = some s.dataUrl := by
    intro s hs
    rw [handleSlice_eq_spec] at hs
    unfold handleSliceSpec at hs
    obtain ⟨p, _, hps⟩ := List.mem_filterMap.mp hs
    unfold encodeAt at hps
    cases henc : enc img (encodeArgsFor cfg (cropRect (vRanges gl) (hRanges gl)
        img.naturalWidth img.naturalHeight p.2.1 p.2.2)) with
    | none => rw [henc] at hps; exact absurd hps (by simp)
    | some d =>
        rw [henc] at hps
        have hrow : s.row = p.2.1 := by cases hps; rfl
        have hcol : s.col = p.2.2 := by cases hps; rfl
        have hurl : s.dataUrl = d := by cases hps; rfl
        rw [hrow, hcol, hurl, henc]
  refine ⟨hmain, ?_, ?_⟩
  · intro rc _ hnone s hs ⟨hrow, hcol⟩
    have := hmain s hs
    rw [hrow, hcol, hnone] at this
    exact absurd this (by simp)
  · intro rc hrc d henc
    obtain ⟨i, hi⟩ := List.mem_iff_getElem?.mp hrc
    have hp : (i, rc) ∈ (posCells img gl).enum := List.mem_enum_iff_getElem?.mpr hi
    have hstep : encodeAt enc img cfg (vRanges gl) (hRanges gl) (i, rc) =
        some { dataUrl := d, index := i, row := rc.1, col := rc.2 } := by
      unfold encodeAt
      rw [henc]
    refine ⟨{ dataUrl := d, index := i, row := rc.1, col := rc.2 }, ?_, rfl, rfl, rfl⟩
    rw [handleSlice_eq_spec]
    unfold handleSliceSpec
    exact List.mem_filterMap.mpr ⟨(i, rc), hp, hstep⟩

/-- Witness for C8: with an always-failing encoder on `glInverted`, the
positive cell (0,1) yields no slice. -/
theorem handleSlice_encode_failure_absorbed_witness :
    ∀ s ∈ handleSlice encNone img100 glInverted cfgDefault,
      ¬(s.row = 0 ∧ s.col = 1) :=
  (handleSlice_encode_failure_absorbed encNone img100 glInverted cfgDefault).2.1
    (0, 1) (by with_unfolding_all decide) rfl

/-- The component state that `handleSlice` closes over, together with the
unrelated pieces of app state it could in principle have depended on
(src/App.tsx lines 9-21). -/
structure AppState where
  image : Option Image
  gridLines : GridLines
  quality : ℚ
  optimizeResolution : Bool
  outputFormat : OutputFormat
  slices : List SliceResult
  isSlicing : Bool
  settingsDirty : Bool
  deriving DecidableEq

/-- The function `handleSlice` as a transition on app state (src/App.tsx lines 88-181):
without an image it returns unchanged; otherwise it replaces `slices`
wholesale with the freshly computed list and clears the in-progress and
dirty flags. -/
def handleSliceApp (enc : Encoder) (st : AppState) : AppState :=
  match st.image with
  | none => st
  | some img =>
      { st with
        slices := handleSlice enc img st.gridLines
          { quality := st.quality, optimizeResolution := st.optimizeResolution,
            outputFormat := st.outputFormat },
        isSlicing := false,
        settingsDirty := false }

/-- C9: the slicing operation is a function of (encoder, image, grid
lines, quality, optimizeResolution, outputFormat) alone: two invocations
from states that agree on those inputs — whatever their previous slices
or flags — produce identical slice sequences (same length, same metadata,
same payloads), given that the underlying encoder is a function of its
inputs. -/
theorem handleSliceApp_deterministic (enc : Encoder) (st1 st2 : AppState)
    (img : Image) (h1 : st1.image = some img) (h2 : st2.image = some img)
    (hgl : st1.gridLines = st2.gridLines) (hq : st1.quality = st2.quality)
    (ho : st1.optimizeResolution = st2.optimizeResolution)
    (hf : st1.outputFormat = st2.outputFormat) :
    (handleSliceApp enc st1).slices = (handleSliceApp enc st2).slices := by
  unfold handleSliceApp
  rw [h1, h2]
  simp [hgl, hq, ho, hf]

/-- Witness for C9: two states with the same image, grid and config but
different stale slices and flags produce the same slice list. -/
theorem handleSliceApp_deterministic_witness :
    (handleSliceApp encAll
      { image := some img100, gridLines := glInverted, quality := 3 / 5,
        optimizeResolution := true, outputFormat := .webp, slices := [],
        isSlicing := false, settingsDirty := false }).slices =
    (handleSliceApp encAll
      { image := some img100, gridLines := glInverted, quality := 3 / 5,
        optimizeResolution := true, outputFormat := .webp,
        slices := [{ dataUrl := "stale", index := 7, row := 3, col := 4 }],
        isSlicing := true, settingsDirty := true }).slices :=
  handleSliceApp_deterministic encAll _ _ img100 rfl rfl rfl rfl rfl rfl

/-- C4: for positive crop dimensions, the target dimensions never exceed
the active cap (1080 with optimizeResolution, 4096 without); when the cap
forces scaling, both dimensions are scaled by
`ratio = min (maxDim/width) (maxDim/height)`, and the target aspect ratio
equals the original aspect ratio exactly. -/
theorem targetDims_spec (opt : Bool) (w h : ℚ) (hw : 0 < w) (hh : 0 < h) :
    (targetDims opt w h).1 ≤ maxDimFor opt ∧
    (targetDims opt w h).2 ≤ maxDimFor opt ∧
    (targetDims opt w h).1 / (targetDims opt w h).2 = w / h ∧
    (maxDimFor opt < w ∨ maxDimFor opt < h →
      targetDims opt w h =
        (w * min (maxDimFor opt / w) (maxDimFor opt / h),
         h * min (maxDimFor opt / w) (maxDimFor opt / h))) := by
  have hm : 0 < maxDimFor opt := by
    unfold maxDimFor
    split <;> norm_num
  unfold targetDims
  by_cases hcond : w > maxDimFor opt ∨ h > maxDimFor opt
  · rw [if_pos hcond]
    have hrpos : 0 < min (maxDimFor opt / w) (maxDimFor opt / h) :=
      lt_min (div_pos hm hw) (div_pos hm hh)
    refine ⟨?_, ?_, ?_, fun _ => rfl⟩
    · calc w * min (maxDimFor opt / w) (maxDimFor opt / h)
          ≤ w * (maxDimFor opt / w) :=
            mul_le_mul_of_nonneg_left (min_le_left _ _) (le_of_lt hw)
        _ = maxDimFor opt := by field_simp
    · calc h * min (maxDimFor opt / w) (maxDimFor opt / h)
          ≤ h * (maxDimFor opt / h) :=
            mul_le_mul_of_nonneg_left (min_le_right _ _) (le_of_lt hh)
        _ = maxDimFor opt := by field_simp
    · exact mul_div_mul_right w h (ne_of_gt hrpos)
  · rw [if_neg hcond]
    push_neg at hcond
    exact ⟨hcond.1, hcond.2, rfl, fun habs => absurd habs (by push_neg; exact hcond)⟩

/-- Witness for C4 at `opt = false`, a 5000 × 2000 crop. -/
theorem targetDims_spec_witness :
    (targetDims false 5000 2000).1 ≤ maxDimFor false ∧
    (targetDims false 5000 2000).2 ≤ maxDimFor false ∧
    (targetDims false 5000 2000).1 / (targetDims false 5000 2000).2 =
      (5000 : ℚ) / 2000 ∧
    (maxDimFor false < 5000 ∨ maxDimFor false < 2000 →
      targetDims false 5000 2000 =
        (5000 * min (maxDimFor false / 5000) (maxDimFor false / 2000),
         2000 * min (maxDimFor false / 5000) (maxDimFor false / 2000))) :=
  targetDims_spec false 5000 2000 (by norm_num) (by norm_num)

/-- C6: the crop rectangle of cell `(r, c)` is the gap between adjacent
gutters: origin at `vertical[c].end` / `horizontal[r].end` (as percentages
of the image dimensions), extending to `vertical[c+1].start` /
`horizontal[r+1].start`, with width and height clamped by `max 0`; it is a
pure function of the grid lines and the image dimensions. -/
theorem cropRect_spec (gl : GridLines) (w h : ℚ) (r c : ℕ)
    (hr : r + 1 < gl.horizontal.length) (hc : c + 1 < gl.vertical.length) :
    cropRect (vRanges gl) (hRanges gl) w h r c =
      { xStart := (gl.vertical.getD c default).«end» / 100 * w,
        yStart := (gl.horizontal.getD r default).«end» / 100 * h,
        sliceW := max 0 ((gl.vertical.getD (c + 1) default).start / 100 * w -
                         (gl.vertical.getD c default).«end» / 100 * w),
        sliceH := max 0 ((gl.horizontal.getD (r + 1) default).start / 100 * h -
                         (gl.horizontal.getD r default).«end» / 100 * h) } := by
  have hc' : c < gl.vertical.length - 1 := by omega
  have hr' : r < gl.horizontal.length - 1 := by omega
  have hv : (vRanges gl).getD c (0, 0) =
      ((gl.vertical.getD c default).«end», (gl.vertical.getD (c + 1) default).start) := by
    unfold vRanges
    rw [List.getD_eq_getElem?_getD, List.getElem?_map, List.getElem?_range hc']
    rfl
  have hh : (hRanges gl).getD r (0, 0) =
      ((gl.horizontal.getD r default).«end», (gl.horizontal.getD (r + 1) default).start) := by
    unfold hRanges
    rw [List.getD_eq_getElem?_getD, List.getElem?_map, List.getElem?_range hr']
    rfl
  unfold cropRect
  rw [hv, hh]

/-- Witness for C6 on `glInverted` at cell (0, 1) of a 100 × 100 image. -/
theorem cropRect_spec_witness :
    cropRect (vRanges glInverted) (hRanges glInverted) 100 100 0 1 =
      { xStart := (glInverted.vertical.getD 1 default).«end» / 100 * 100,
        yStart := (glInverted.horizontal.getD 0 default).«end» / 100 * 100,
        sliceW := max 0 ((glInverted.vertical.getD 2 default).start / 100 * 100 -
                         (glInverted.vertical.getD 1 default).«end» / 100 * 100),
        sliceH := max 0 ((glInverted.horizontal.getD 1 default).start / 100 * 100 -
                         (glInverted.horizontal.getD 0 default).«end» / 100 * 100) } :=
  cropRect_spec glInverted 100 100 0 1 (by with_unfolding_all decide)
    (by with_unfolding_all decide)

/-- The single-cell grid: default boundaries for `rows = cols = 1`. -/
def glSingle : GridLines := initializeGridLines 1 1

/-- A 5000 × 5000 source image. -/
def img5000 : Image := { naturalWidth := 5000, naturalHeight := 5000 }

/-- The configuration of the C3 scenario: `optimizeResolution = false`. -/
def cfgNoOpt : SliceConfig :=
  { quality := 3 / 5, optimizeResolution := false, outputFormat := .webp }

/-- A probe encoder that reports whether the target width handed to the
encode step equals the crop width scaled by `4096/5000`. -/
def encRatioProbe : Encoder := fun _ args =>
  if args.targetW = args.sliceW * (4096 / 5000) then some "ratio-4096-5000"
  else some "other-ratio"

lemma glSingle_eq :
    glSingle =
      { horizontal := [{ start := 0, «end» := 3 / 2 }, { start := 197 / 2, «end» := 100 }],
        vertical := [{ start := 0, «end» := 3 / 2 }, { start := 197 / 2, «end» := 100 }] } := by
  unfold glSingle initializeGridLines generateBoundaries
  norm_num [List.range_succ]

lemma hRanges_glSingle : hRanges glSingle = [(3 / 2, 197 / 2)] := by
  rw [glSingle_eq]
  norm_num [hRanges, List.range_succ]

lemma vRanges_glSingle : vRanges glSingle = [(3 / 2, 197 / 2)] := by
  rw [glSingle_eq]
  norm_num [vRanges, List.range_succ]

lemma cropRect_glSingle :
    cropRect (vRanges glSingle) (hRanges glSingle) 5000 5000 0 0 =
      { xStart := 75, yStart := 75, sliceW := 4850, sliceH := 4850 } := by
  rw [vRanges_glSingle, hRanges_glSingle]
  unfold cropRect
  norm_num

lemma targetDims_4850 : targetDims false 4850 4850 = (4096, 4096) := by
  unfold targetDims maxDimFor
  norm_num [min_self]

lemma handleSlice_glSingle (enc : Encoder) :
    handleSlice enc img5000 glSingle cfgNoOpt =
      match enc img5000
          { xStart := 75, yStart := 75, sliceW := 4850, sliceH := 4850,
            targetW := 4096, targetH := 4096,
            mimeType := "image/webp", quality := some (3 / 5) } with
      | some d => [{ dataUrl := d, index := 0, row := 0, col := 0 }]
      | none => [] := by
  show ((cells (glSingle.horizontal.length - 1) (glSingle.vertical.length - 1)).foldl
      (processCell enc img5000 cfgNoOpt (vRanges glSingle) (hRanges glSingle)) (0, [])).2 = _
  have hlh : glSingle.horizontal.length - 1 = 1 := by rw [glSingle_eq]; rfl
  have hlv : glSingle.vertical.length - 1 = 1 := by rw [glSingle_eq]; rfl
  rw [hlh, hlv, (by decide : cells 1 1 = [(0, 0)]), List.foldl_cons, List.foldl_nil]
  unfold processCell
  rw [show ((0, 0) : ℕ × ℕ).1 = 0 from rfl, show ((0, 0) : ℕ × ℕ).2 = 0 from rfl]
  rw [show img5000.naturalWidth = 5000 from rfl, show img5000.naturalHeight = 5000 from rfl]
  rw [cropRect_glSingle]
  rw [if_neg (by norm_num :
    ¬((CropRect.mk 75 75 4850 4850).sliceW ≤ 0 ∨ (CropRect.mk 75 75 4850 4850).sliceH ≤ 0))]
  have hargs : encodeArgsFor cfgNoOpt { xStart := 75, yStart := 75, sliceW := 4850, sliceH := 4850 } =
      { xStart := 75, yStart := 75, sliceW := 4850, sliceH := 4850,
        targetW := 4096, targetH := 4096,
        mimeType := "image/webp", quality := some (3 / 5) } := by
    unfold encodeArgsFor
    rw [show cfgNoOpt.optimizeResolution = false from rfl]
    rw [show (CropRect.mk 75 75 4850 4850).sliceW = 4850 from rfl,
      show (CropRect.mk 75 75 4850 4850).sliceH = 4850 from rfl]
    rw [targetDims_4850]
    rfl
  rw [hargs]
  cases enc img5000
      { xStart := 75, yStart := 75, sliceW := 4850, sliceH := 4850,
        targetW := 4096, targetH := 4096,
        mimeType := "image/webp", quality := some (3 / 5) } <;> rfl

/-- C3 counterexample: slicing the 1×1 default grid over a 5000 × 5000
image with `optimizeResolution = false` produces exactly one tile, and its
target width is NOT the crop width scaled by `4096/5000` (the probe
encoder reports "other-ratio", because `4096 ≠ 4850 * (4096/5000)`): the
code divides `maxDim` by the crop dimension 4850, not by the image
dimension 5000. -/
theorem handleSlice_single_ratio_counterexample :
    handleSlice encRatioProbe img5000 glSingle cfgNoOpt =
      [{ dataUrl := "other-ratio", index := 0, row := 0, col := 0 }] := by
  rw [handleSlice_glSingle encRatioProbe]
  have hne : ¬((4096 : ℚ) = 4850 * (4096 / 5000)) := by norm_num
  simp [encRatioProbe, hne]

/-- C3 amended: the run yields exactly one tile; its crop is 4850 × 4850
(the band from 1.5% to 98.5% of 5000), and the target dimensions are the
crop dimensions scaled by `ratio = 4096/4850 = maxDim / cropDim`,
i.e. exactly 4096 × 4096. -/
theorem handleSlice_single_ratio_amended :
    (handleSlice encAll img5000 glSingle cfgNoOpt).length = 1 ∧
    (cropRect (vRanges glSingle) (hRanges glSingle) 5000 5000 0 0).sliceW = 4850 ∧
    (cropRect (vRanges glSingle) (hRanges glSingle) 5000 5000 0 0).sliceH = 4850 ∧
    targetDims false 4850 4850 =
      (4850 * ((4096 : ℚ) / 4850), 4850 * ((4096 : ℚ) / 4850)) ∧
    targetDims false 4850 4850 = (4096, 4096) := by
  refine ⟨?_, ?_, ?_, ?_, targetDims_4850⟩
  · rw [handleSlice_glSingle encAll]
    rfl
  · rw [cropRect_glSingle]
  · rw [cropRect_glSingle]
  · rw [targetDims_4850]
    norm_num

/-- The list `hRanges` with every array subscript checked: `none` would signal an
out-of-range access in the loop of src/App.tsx lines 102-104. -/
def hRangesChecked (gl : GridLines) : Option (List (ℚ × ℚ)) :=
  (List.range (gl.horizontal.length - 1)).mapM fun i =>
    match gl.horizontal[i]?, gl.horizontal[i + 1]? with
    | some a, some b => some (a.«end», b.start)
    | _, _ => none

/-- The list `vRanges` with every array subscript checked. -/
def vRangesChecked (gl : GridLines) : Option (List (ℚ × ℚ)) :=
  (List.range (gl.vertical.length - 1)).mapM fun i =>
    match gl.vertical[i]?, gl.vertical[i + 1]? with
    | some a, some b => some (a.«end», b.start)
    | _, _ => none

/-- The function `cropRect` with the two range-list subscripts checked. -/
def cropRectChecked (vr hr : List (ℚ × ℚ)) (naturalWidth naturalHeight : ℚ)
    (r c : ℕ) : Option CropRect :=
  match vr[c]?, hr[r]? with
  | some vb, some hb =>
      some { xStart := vb.1 / 100 * naturalWidth,
             yStart := hb.1 / 100 * naturalHeight,
             sliceW := max 0 (vb.2 / 100 * naturalWidth - vb.1 / 100 * naturalWidth),
             sliceH := max 0 (hb.2 / 100 * naturalHeight - hb.1 / 100 * naturalHeight) }
  | _, _ => none

/-- One loop iteration with checked subscripts. -/
def processCellChecked (enc : Encoder) (img : Image) (cfg : SliceConfig)
    (vr hr : List (ℚ × ℚ)) (st : ℕ × List SliceResult) (rc : ℕ × ℕ) :
    Option (ℕ × List SliceResult) :=
  match cropRectChecked vr hr img.naturalWidth img.naturalHeight rc.1 rc.2 with
  | none => none
  | some cr =>
      some (if cr.sliceW ≤ 0 ∨ cr.sliceH ≤ 0 then st
            else match enc img (encodeArgsFor cfg cr) with
              | some dataUrl =>
                  (st.1 + 1,
                   st.2 ++ [{ dataUrl := dataUrl, index := st.1, row := rc.1, col := rc.2 }])
              | none => (st.1 + 1, st.2))

/-- The whole slicing operation with every subscript checked. -/
def handleSliceChecked (enc : Encoder) (img : Image) (gl : GridLines)
    (cfg : SliceConfig) : Option (List SliceResult) := do
  let hr ← hRangesChecked gl
  let vr ← vRangesChecked gl
  let st ← (cells (gl.horizontal.length - 1) (gl.vertical.length - 1)).foldlM
    (processCellChecked enc img cfg vr hr) (0, [])
  pure st.2

lemma mapM_eq_some_map {α β : Type} (f? : α → Option β) (f : α → β) :
    ∀ l : List α, (∀ a ∈ l, f? a = some (f a)) → l.mapM f? = some (l.map f) := by
  intro l
  induction l with
  | nil => intro _; rfl
  | cons x l ih =>
    intro hall
    rw [List.mapM_cons, hall x (List.mem_cons_self x l),
      ih fun a ha => hall a (List.mem_cons_of_mem x ha)]
    rfl

lemma foldlM_eq_some_foldl {σ α : Type} (f? : σ → α → Option σ) (f : σ → α → σ) :
    ∀ (l : List α), (∀ a ∈ l, ∀ st, f? st a = some (f st a)) →
      ∀ st, l.foldlM f? st = some (l.foldl f st) := by
  intro l
  induction l with
  | nil => intro _ st; rfl
  | cons x l ih =>
    intro hall st
    rw [List.foldlM_cons, hall x (List.mem_cons_self x l) st]
    exact ih (fun a ha st' => hall a (List.mem_cons_of_mem x ha) st') (f st x)

lemma hRangesChecked_eq (gl : GridLines) :
    hRangesChecked gl = some (hRanges gl) := by
  unfold hRangesChecked hRanges
  apply mapM_eq_some_map
  intro i hi
  rw [List.mem_range] at hi
  have h1 : i < gl.horizontal.length := by omega
  have h2 : i + 1 < gl.horizontal.length := by omega
  rw [List.getElem?_eq_getElem h1, List.getElem?_eq_getElem h2]
  rw [List.getD_eq_getElem?_getD, List.getD_eq_getElem?_getD,
    List.getElem?_eq_getElem h1, List.getElem?_eq_getElem h2]
  rfl

lemma vRangesChecked_eq (gl : GridLines) :
    vRangesChecked gl = some (vRanges gl) := by
  unfold vRangesChecked vRanges
  apply mapM_eq_some_map
  intro i hi
  rw [List.mem_range] at hi
  have h1 : i < gl.vertical.length := by omega
  have h2 : i + 1 < gl.vertical.length := by omega
  rw [List.getElem?_eq_getElem h1, List.getElem?_eq_getElem h2]
  rw [List.getD_eq_getElem?_getD, List.getD_eq_getElem?_getD,
    List.getElem?_eq_getElem h1, List.getElem?_eq_getElem h2]
  rfl

lemma cropRectChecked_eq (vr hr : List (ℚ × ℚ)) (w h : ℚ) (r c : ℕ)
    (hcb : c < vr.length) (hrb : r < hr.length) :
    cropRectChecked vr hr w h r c = some (cropRect vr hr w h r c) := by
  unfold cropRectChecked cropRect
  rw [List.getElem?_eq_getElem hcb, List.getElem?_eq_getElem hrb]
  rw [List.getD_eq_getElem?_getD, List.getD_eq_getElem?_getD,
    List.getElem?_eq_getElem hcb, List.getElem?_eq_getElem hrb]
  rfl

lemma processCellChecked_eq (enc : Encoder) (img : Image) (cfg : SliceConfig)
    (vr hr : List (ℚ × ℚ)) (st : ℕ × List SliceResult) (rc : ℕ × ℕ)
    (hcb : rc.2 < vr.length) (hrb : rc.1 < hr.length) :
    processCellChecked enc img cfg vr hr st rc =
      some (processCell enc img cfg vr hr st rc) := by
  unfold processCellChecked
  rw [cropRectChecked_eq vr hr img.naturalWidth img.naturalHeight rc.1 rc.2 hcb hrb]
  rfl

lemma mem_cells {numRows numCols : ℕ} {rc : ℕ × ℕ}
    (h : rc ∈ cells numRows numCols) : rc.1 < numRows ∧ rc.2 < numCols := by
  unfold cells at h
  obtain ⟨r, hr, hmap⟩ := List.mem_bind.mp h
  obtain ⟨c, hcmem, hrc⟩ := List.mem_map.mp hmap
  rw [List.mem_range] at hr hcmem
  rw [← hrc]
  exact ⟨hr, hcmem⟩

/-- C10: the slicing loop never performs an out-of-range boundary access —
the fully subscript-checked model computes `some` of the unchecked model's
result for every grid — and when either axis has fewer than two boundaries
the operation returns the empty slice list rather than failing. -/
theorem handleSlice_in_bounds (enc : Encoder) (img : Image) (gl : GridLines)
    (cfg : SliceConfig) :
    handleSliceChecked enc img gl cfg = some (handleSlice enc img gl cfg) ∧
    (gl.horizontal.length < 2 ∨ gl.vertical.length < 2 →
      handleSlice enc img gl cfg = []) := by
  constructor
  · unfold handleSliceChecked
    rw [hRangesChecked_eq, vRangesChecked_eq]
    have hlenh : (hRanges gl).length = gl.horizontal.length - 1 := by
      unfold hRanges; simp
    have hlenv : (vRanges gl).length = gl.vertical.length - 1 := by
      unfold vRanges; simp
    have hfold := foldlM_eq_some_foldl
      (processCellChecked enc img cfg (vRanges gl) (hRanges gl))
      (processCell enc img cfg (vRanges gl) (hRanges gl))
      (cells (gl.horizontal.length - 1) (gl.vertical.length - 1))
      (fun rc hrc st => by
        have hb := mem_cells hrc
        exact processCellChecked_eq enc img cfg (vRanges gl) (hRanges gl) st rc
          (by omega) (by omega))
      (0, [])
    rw [Option.bind_eq_bind, Option.some_bind, Option.some_bind, hfold]
    rfl
  · intro hlt
    have hcells : cells (gl.horizontal.length - 1) (gl.vertical.length - 1) = [] := by
      rcases hlt with hlt | hlt
      · have : gl.horizontal.length - 1 = 0 := by omega
        rw [this]
        rfl
      · have : gl.vertical.length - 1 = 0 := by omega
        rw [this]
        unfold cells
        simp
    show ((cells (gl.horizontal.length - 1) (gl.vertical.length - 1)).foldl
        (processCell enc img cfg (vRanges gl) (hRanges gl)) (0, [])).2 = []
    rw [hcells]
    rfl

/-- The empty grid-lines value, the app's initial state before an image
is loaded (src/App.tsx lines 14-17). -/
def glEmpty : GridLines := { horizontal := [], vertical := [] }

/-- Witness for C10: on the initial empty grid lines the operation
returns the empty slice list. -/
theorem handleSlice_in_bounds_witness :
    handleSlice encAll img100 glEmpty cfgDefault = [] :=
  (handleSlice_in_bounds encAll img100 glEmpty cfgDefault).2 (Or.inl (by simp [glEmpty]))

/-- Drag axis (`'h' | 'v'` in src/App.tsx GridEditor). -/
inductive DragAxis
  | h
  | v
  deriving DecidableEq

/-- Dragged side of a boundary (`'start' | 'end'`). -/
inductive DragSide
  | start
  | «end»
  deriving DecidableEq

/-- The GridEditor dragging state (src/App.tsx lines 403-407). -/
structure Dragging where
  type : DragAxis
  boundaryIdx : ℕ
  side : DragSide
  deriving DecidableEq

/-- The computed-property write `{ ...b, [dragging.side]: v }`. -/
def setSide (b : Boundary) : DragSide → ℚ → Boundary
  | .start, v => { b with start := v }
  | .«end», v => { b with «end» := v }

/-- The handler `handleMouseMove` of the grid editor (src/App.tsx lines 413-438),
given the dragging state, the current grid lines, the pointer coordinates
and the editing surface's bounding rectangle. -/
def handleMouseMove (d : Dragging) (gl : GridLines)
    (clientX clientY rectLeft rectTop rectWidth rectHeight : ℚ) : GridLines :=
  let x := (clientX - rectLeft) / rectWidth * 100
  let y := (clientY - rectTop) / rectHeight * 100
  let clampedX := max 0 (min 100 x)
  let clampedY := max 0 (min 100 y)
  { horizontal :=
      if d.type = DragAxis.h then
        gl.horizontal.mapIdx fun idx b =>
          if idx ≠ d.boundaryIdx then b else setSide b d.side clampedY
      else gl.horizontal,
    vertical :=
      if d.type = DragAxis.v then
        gl.vertical.mapIdx fun idx b =>
          if idx ≠ d.boundaryIdx then b else setSide b d.side clampedX
      else gl.vertical }

lemma getElem?_mapIdx {α β : Type} (l : List α) (f : ℕ → α → β) (i : ℕ) :
    (l.mapIdx f)[i]? = (l[i]?).map (f i) := by
  rw [List.mapIdx_eq_enum_map, List.getElem?_map, List.getElem?_enum]
  cases l[i]? <;> rfl

/-- C5: on every pointer move while dragging, the handler writes the
clamped percentage position into exactly the captured scalar of the
captured boundary on the captured axis: list lengths are preserved, the
other axis is untouched, every other boundary is untouched, the untouched
side of the captured boundary keeps its old value (so `start > end` is
permitted and never normalized), and the written value is the pointer
percentage clamped to `[0, 100]`. -/
theorem handleMouseMove_spec (d : Dragging) (gl : GridLines)
    (cX cY rL rT rW rH : ℚ) :
    ((handleMouseMove d gl cX cY rL rT rW rH).horizontal.length =
      gl.horizontal.length) ∧
    ((handleMouseMove d gl cX cY rL rT rW rH).vertical.length =
      gl.vertical.length) ∧
    (d.type = DragAxis.h →
      (handleMouseMove d gl cX cY rL rT rW rH).vertical = gl.vertical) ∧
    (d.type = DragAxis.v →
      (handleMouseMove d gl cX cY rL rT rW rH).horizontal = gl.horizontal) ∧
    (∀ idx : ℕ, idx ≠ d.boundaryIdx →
      (handleMouseMove d gl cX cY rL rT rW rH).horizontal[idx]? =
        gl.horizontal[idx]? ∧
      (handleMouseMove d gl cX cY rL rT rW rH).vertical[idx]? =
        gl.vertical[idx]?) ∧
    (d.type = DragAxis.h → ∀ b, gl.horizontal[d.boundaryIdx]? = some b →
      ∃ b', (handleMouseMove d gl cX cY rL rT rW rH).horizontal[d.boundaryIdx]? =
          some b' ∧
        (d.side = DragSide.start →
          b'.start = max 0 (min 100 ((cY - rT) / rH * 100)) ∧ b'.«end» = b.«end») ∧
        (d.side = DragSide.«end» →
          b'.«end» = max 0 (min 100 ((cY - rT) / rH * 100)) ∧ b'.start = b.start)) ∧
    (d.type = DragAxis.v → ∀ b, gl.vertical[d.boundaryIdx]? = some b →
      ∃ b', (handleMouseMove d gl cX cY rL rT rW rH).vertical[d.boundaryIdx]? =
          some b' ∧
        (d.side = DragSide.start →
          b'.start = max 0 (min 100 ((cX - rL) / rW * 100)) ∧ b'.«end» = b.«end») ∧
        (d.side = DragSide.«end» →
          b'.«end» = max 0 (min 100 ((cX - rL) / rW * 100)) ∧ b'.start = b.start)) ∧
    (0 ≤ max 0 (min 100 ((cY - rT) / rH * 100)) ∧
      max 0 (min 100 ((cY - rT) / rH * 100)) ≤ 100) ∧
    (0 ≤ max 0 (min 100 ((cX - rL) / rW * 100)) ∧
      max 0 (min 100 ((cX - rL) / rW * 100)) ≤ 100) := by
  have haxis : ¬(DragAxis.h = DragAxis.v) := by decide
  refine ⟨?_, ?_, ?_, ?_, ?_, ?_, ?_, ?_, ?_⟩
  · unfold handleMouseMove
    by_cases ht : d.type = DragAxis.h <;> simp [ht]
  · unfold handleMouseMove
    by_cases ht : d.type = DragAxis.v <;> simp [ht]
  · intro ht
    simp only [handleMouseMove]
    rw [if_neg (ht ▸ haxis)]
  · intro ht
    simp only [handleMouseMove]
    rw [if_neg (fun hh : d.type = DragAxis.h => haxis (hh.symm.trans ht))]
  · intro idx hidx
    simp only [handleMouseMove]
    constructor
    · by_cases ht : d.type = DragAxis.h
      · rw [if_pos ht, getElem?_mapIdx]
        cases gl.horizontal[idx]? <;> simp [hidx]
      · rw [if_neg ht]
    · by_cases ht : d.type = DragAxis.v
      · rw [if_pos ht, getElem?_mapIdx]
        cases gl.vertical[idx]? <;> simp [hidx]
      · rw [if_neg ht]
  · intro ht b hb
    refine ⟨setSide b d.side (max 0 (min 100 ((cY - rT) / rH * 100))), ?_, ?_, ?_⟩
    · simp only [handleMouseMove]
      rw [if_pos ht, getElem?_mapIdx, hb]
      simp
    · intro hside
      rw [hside]
      exact ⟨rfl, rfl⟩
    · intro hside
      rw [hside]
      exact ⟨rfl, rfl⟩
  · intro ht b hb
    refine ⟨setSide b d.side (max 0 (min 100 ((cX - rL) / rW * 100))), ?_, ?_, ?_⟩
    · simp only [handleMouseMove]
      rw [if_pos ht, getElem?_mapIdx, hb]
      simp
    · intro hside
      rw [hside]
      exact ⟨rfl, rfl⟩
    · intro hside
      rw [hside]
      exact ⟨rfl, rfl⟩
  · exact ⟨le_max_left 0 _, max_le (by norm_num) (min_le_left 100 _)⟩
  · exact ⟨le_max_left 0 _, max_le (by norm_num) (min_le_left 100 _)⟩

/-- Witness for C5: dragging the start edge of vertical boundary 1 of
`glInverted` to pointer position 90% writes `start := 90` while `end`
stays 60 — producing `start > end`, unnormalized. -/
theorem handleMouseMove_spec_witness :
    ∃ b', (handleMouseMove
        { type := DragAxis.v, boundaryIdx := 1, side := DragSide.start }
        glInverted 90 0 0 0 100 100).vertical[(1 : ℕ)]? = some b' ∧
      (DragSide.start = DragSide.start →
        b'.start = max 0 (min 100 ((90 - 0) / 100 * 100)) ∧
        b'.«end» = Boundary.«end» { start := 10, «end» := 60 }) ∧
      (DragSide.start = DragSide.«end» →
        b'.«end» = max 0 (min 100 ((90 - 0) / 100 * 100)) ∧
        b'.start = Boundary.start { start := 10, «end» := 60 }) :=
  (handleMouseMove_spec
    { type := DragAxis.v, boundaryIdx := 1, side := DragSide.start }
    glInverted 90 0 0 0 100 100).2.2.2.2.2.2.1 rfl
    { start := 10, «end» := 60 } rfl

/-- Entry names used by `downloadAll` in src/components/SlicePreview.tsx
lines 42-45: the `forEach` position `idx`, 1-based, with a hard-coded
`.webp` extension. -/
def zipEntryNames (slices : List SliceResult) : List String :=
  slices.enum.map fun p => "slice_" ++ toString (p.1 + 1) ++ ".webp"

/-- File name used by `downloadOne` (src/components/SlicePreview.tsx
lines 64-67), called with `slice.index` (line 132). -/
def downloadOneName (idx : ℕ) : String :=
  "slice_" ++ toString (idx + 1) ++ ".webp"

/-- Modelled from the spec: the §6 archive naming convention — each tile
named by its own `index` as a 1-based position, with a file extension
matching the negotiated output format. -/
def specArchiveNames (fmt : OutputFormat) (slices : List SliceResult) :
    List String :=
  slices.map fun s => "slice_" ++ toString (s.index + 1) ++ "." ++ fmt.str

/-- C7, evaluated at the failing input: a result collection holding one
tile whose `index` is 5 (as arises after skipped or failed cells), with
`jpeg` negotiated. The code names the archive entry `slice_1.webp` — by
`forEach` position and with a hard-coded webp extension — where the
claimed convention requires `slice_6.jpeg`; `downloadOne`, by contrast,
does use the tile's `index`. -/
theorem zipEntryNames_at_failing_input :
    zipEntryNames [{ dataUrl := "d", index := 5, row := 1, col := 2 }] =
      ["slice_1.webp"] ∧
    specArchiveNames OutputFormat.jpeg
        [{ dataUrl := "d", index := 5, row := 1, col := 2 }] = ["slice_6.jpeg"] ∧
    zipEntryNames [{ dataUrl := "d", index := 5, row := 1, col := 2 }] ≠
      specArchiveNames OutputFormat.jpeg
        [{ dataUrl := "d", index := 5, row := 1, col := 2 }] ∧
    downloadOneName 5 = "slice_6.webp" := by
  refine ⟨rfl, rfl, ?_, rfl⟩
  decide

end GridSlicer
